import Mathlib

/-!
Verification development for the tr-be rules engine (Resistance/Avalon-style
social-deduction game server).

The definitions below are a shallow embedding of the current implementation:
the Room session state machine (src/game/Room.ts), the hook pipeline
(src/game/hooks/HookManager.ts) and the session registry
(src/game/GameManager.ts, the per-room hook-manager revision that the test
suite exercises).  JavaScript Maps are modelled as insertion-ordered
association lists with overwrite-in-place semantics; activity timestamps
(Date.now) and console logging are external effects and are not part of the
state model; Math.random results (initial leader pick, role shuffle) enter as
explicit parameters where needed, so startGame/assignRoles are outside the
fragment modelled here.  Hook callbacks run by resolveMission may rewrite the
tentative next phase through the shared context; that effect is modelled by an
explicit parameter giving the nextPhase field of the pipeline result.
-/

/-- Game constants, from src/game/constants.ts. -/
def MIN_PLAYERS : Nat := 1

def MAX_PLAYERS : Nat := 20

def MAX_REJECTIONS : Nat := 5

def MISSIONS_TO_SUCCEED : Nat := 3

def MISSIONS_TO_FAIL : Nat := 3

/-- Mission configuration table (player count to the five team sizes), from
src/game/constants.ts. -/
def MISSION_CONFIG : Nat → Option (List Nat)
  | 1 => some [1, 1, 1, 1, 1]
  | 2 => some [1, 2, 1, 2, 2]
  | 3 => some [2, 2, 2, 2, 2]
  | 4 => some [2, 2, 2, 3, 3]
  | 5 => some [2, 3, 2, 3, 3]
  | 6 => some [2, 3, 4, 3, 4]
  | 7 => some [2, 3, 3, 4, 4]
  | 8 => some [3, 4, 4, 5, 5]
  | 9 => some [3, 4, 4, 5, 5]
  | 10 => some [3, 4, 4, 5, 5]
  | 11 => some [3, 4, 4, 5, 5]
  | 12 => some [3, 4, 4, 5, 5]
  | 13 => some [3, 4, 5, 6, 6]
  | 14 => some [4, 5, 5, 6, 6]
  | 15 => some [4, 5, 5, 6, 6]
  | 16 => some [4, 5, 6, 7, 7]
  | 17 => some [5, 6, 6, 7, 7]
  | 18 => some [5, 6, 6, 7, 7]
  | 19 => some [6, 7, 7, 8, 8]
  | 20 => some [6, 7, 7, 8, 8]
  | _ => none

inductive GamePhase where
  | LOBBY
  | TEAM_SELECTION
  | VOTE
  | MISSION
  | ASSASSINATION
  | RESULTS
  | GAME_OVER
deriving DecidableEq, Repr

inductive Role where
  | RESISTANCE
  | SPY
deriving DecidableEq, Repr

inductive SpecialRole where
  | MERLIN
  | ASSASSIN
deriving DecidableEq, Repr

/-- Player record: `id` is the transient socket id (rewritten on reconnect),
`playerId` the durable per-human UUID. -/
structure Player where
  id : String
  playerId : String
  nickname : String
  role : Option Role := none
  specialRole : Option SpecialRole := none
  isLeader : Bool := false
deriving DecidableEq, Repr

/-- Room session state (src/game/Room.ts fields).  `votes` and
`missionActions` are JS Maps keyed by durable playerId, modelled as
insertion-ordered association lists.  `hookRef` identifies the HookManager
instance the room was constructed with (object identity in the heap model
below). -/
structure Room where
  id : String
  players : List Player := []
  maxPlayers : Nat := MAX_PLAYERS
  minPlayers : Nat := MIN_PLAYERS
  expansions : List String := []
  phase : GamePhase := GamePhase.LOBBY
  currentLeaderIndex : Nat := 0
  currentMissionIndex : Nat := 0
  failedMissions : Nat := 0
  succeededMissions : Nat := 0
  missionHistory : List (Bool × Nat) := []
  assassinationTarget : Option String := none
  selectedTeam : List String := []
  votes : List (String × Bool) := []
  voteRejections : Nat := 0
  missionActions : List (String × Bool) := []
  hookRef : Nat := 0
deriving DecidableEq, Repr

/-- JS Map.set semantics on an association list: overwrite in place if the key
is present, otherwise append. -/
def mapSet (m : List (String × Bool)) (k : String) (v : Bool) : List (String × Bool) :=
  if m.any (fun kv => kv.1 = k) then
    m.map (fun kv => if kv.1 = k then (k, v) else kv)
  else m ++ [(k, v)]

/-- players.find by socket id. -/
def Room.getPlayer (r : Room) (sid : String) : Option Player :=
  r.players.find? (fun p => p.id = sid)

/-- players.find by durable playerId. -/
def Room.getPlayerByPlayerId (r : Room) (pid : String) : Option Player :=
  r.players.find? (fun p => p.playerId = pid)

/-- addPlayer: pushes a new player; durable playerId falls back to the socket
id when absent or empty (JS truthiness of `playerId or id`). -/
def Room.addPlayer (r : Room) (sid nickname : String) (pid : Option String := none) :
    Player × Room :=
  let player : Player :=
    { id := sid
      playerId := match pid with
        | some s => if s = "" then sid else s
        | none => sid
      nickname := nickname }
  (player, { r with players := r.players ++ [player] })

/-- removePlayer: filters the roster by socket id.  Note it does not touch
`currentLeaderIndex`. -/
def Room.removePlayer (r : Room) (sid : String) : Room :=
  { r with players := r.players.filter (fun p => p.id ≠ sid) }

/-- reconnectPlayer rewrites the socket id of the first roster player whose
durable playerId matches (players.find returns the first match, whose `id`
field is then mutated in place). -/
def reconnectList (pid nsid : String) : List Player → List Player
  | [] => []
  | p :: rest =>
    if p.playerId = pid then { p with id := nsid } :: rest
    else p :: reconnectList pid nsid rest

def Room.reconnectPlayer (r : Room) (pid nsid : String) : Bool × Room :=
  if r.players.any (fun p => p.playerId = pid) then
    (true, { r with players := reconnectList pid nsid r.players })
  else (false, r)

/-- updateLeader: clears all isLeader flags and sets the one at
`currentLeaderIndex` (assumed in range; JS would throw otherwise). -/
def setLeaderFlags (ps : List Player) (idx : Nat) : List Player :=
  ps.enum.map (fun e => { e.2 with isLeader := e.1 = idx })

def Room.updateLeader (r : Room) : Room :=
  { r with players := setLeaderFlags r.players r.currentLeaderIndex }

/-- nextTurn: advance the leader cyclically, refresh leader flags, return to
TEAM_SELECTION, clear the proposed team and the votes. -/
def Room.nextTurn (r : Room) : Room :=
  let r1 := { r with currentLeaderIndex := (r.currentLeaderIndex + 1) % r.players.length }
  let r2 := r1.updateLeader
  { r2 with phase := GamePhase.TEAM_SELECTION, selectedTeam := [], votes := [] }

/-- getCurrentMissionSize: table lookup with fallback 0 for unsupported
player counts or mission indices (`missionConfig[n]?.[i] or 0`). -/
def Room.getCurrentMissionSize (r : Room) : Nat :=
  ((MISSION_CONFIG r.players.length).bind (fun l => l.get? r.currentMissionIndex)).getD 0

/-- Count of approving recorded votes (tallyVotes forEach). -/
def Room.approveCount (r : Room) : Nat :=
  (r.votes.filter (fun kv => kv.2 = true)).length

/-- Count of rejecting recorded votes (tallyVotes forEach). -/
def Room.rejectCount (r : Room) : Nat :=
  (r.votes.filter (fun kv => kv.2 = false)).length

/-- Socket-id to durable-id resolution of a proposed team, in order, aborting
at the first unknown socket id (the validation loop of selectTeam). -/
def Room.resolveIds (r : Room) : List String → Option (List String)
  | [] => some []
  | sid :: rest =>
    match r.getPlayer sid with
    | none => none
    | some p => (r.resolveIds rest).map (fun l => p.playerId :: l)

/-- selectTeam: size must equal the configured mission size and every socket
id must resolve to a roster member; on success the team is stored as durable
ids and the phase becomes VOTE; on failure the room is returned unchanged. -/
def Room.selectTeam (r : Room) (socketIds : List String) : Bool × Room :=
  if socketIds.length ≠ r.getCurrentMissionSize then (false, r)
  else
    match r.resolveIds socketIds with
    | none => (false, r)
    | some pids => (true, { r with selectedTeam := pids, phase := GamePhase.VOTE })

/-- submitVote: resolve the socket id to a durable id (silently ignored when
unknown or empty, JS truthiness), record/overwrite the vote. -/
def Room.submitVote (r : Room) (sid : String) (approve : Bool) : Room :=
  match r.getPlayer sid with
  | none => r
  | some p =>
    if p.playerId = "" then r
    else { r with votes := mapSet r.votes p.playerId approve }

structure TallyResult where
  approved : Bool
  approveCount : Nat
  rejectCount : Nat
  penaltyApplied : Bool
deriving DecidableEq, Repr

/-- tallyVotes: strict majority approves; on rejection the cumulative streak
is incremented and, at MAX_REJECTIONS, the penalty forces the spy win
condition (failedMissions set to MISSIONS_TO_FAIL) and GAME_OVER, resetting
the streak; below the maximum the leadership advances.  On approval the
streak is NOT reset (cumulative-rejections rule).  Votes are cleared
unconditionally. -/
def Room.tallyVotes (r : Room) : TallyResult × Room :=
  let a := r.approveCount
  let rj := r.rejectCount
  let approved := decide (a > rj)
  if approved then
    ({ approved := true, approveCount := a, rejectCount := rj, penaltyApplied := false },
      { r with phase := GamePhase.MISSION, votes := [] })
  else
    let vr := r.voteRejections + 1
    if vr ≥ MAX_REJECTIONS then
      ({ approved := false, approveCount := a, rejectCount := rj, penaltyApplied := true },
        { r with failedMissions := MISSIONS_TO_FAIL, phase := GamePhase.GAME_OVER,
                 voteRejections := 0, votes := [] })
    else
      let r1 := Room.nextTurn { r with voteRejections := vr }
      ({ approved := false, approveCount := a, rejectCount := rj, penaltyApplied := false },
        { r1 with votes := [] })

/-- submitMissionAction: resolve the socket id (false when unknown or empty),
require membership in the selected team, record the action. -/
def Room.submitMissionAction (r : Room) (sid : String) (success : Bool) : Bool × Room :=
  match r.getPlayer sid with
  | none => (false, r)
  | some p =>
    if p.playerId = "" then (false, r)
    else if r.selectedTeam.contains p.playerId then
      (true, { r with missionActions := mapSet r.missionActions p.playerId success })
    else (false, r)

/-- Result key used by resolveMission when projecting the recorded actions:
the current socket id when the durable id still resolves to a roster member
with a non-empty socket id, otherwise the durable id itself (so disconnected
players keep an entry). -/
def Room.resolveKey (r : Room) (pid : String) : String :=
  match r.getPlayerByPlayerId pid with
  | some p => if p.id = "" then pid else p.id
  | none => pid

/-- The per-player action map returned by resolveMission, built in insertion
order with Map.set semantics over the resolved keys. -/
def Room.resolveActions (r : Room) : List (String × Bool) :=
  r.missionActions.foldl (fun acc kv => mapSet acc (r.resolveKey kv.1) kv.2) []

structure MissionResult where
  success : Bool
  failCount : Nat
  votes : List (String × Bool)
deriving DecidableEq, Repr

/-- Hook pipeline effect on the tentative next phase in resolveMission: the
value of the nextPhase field of the context returned by the pipeline.  With no
callbacks registered the context is returned unchanged. -/
def idHook : GamePhase → Option GamePhase := fun p => some p

/-- resolveMission: count sabotages, mission succeeds iff none, bump the
corresponding counter and the history, project the recorded actions to
client-facing keys, clear the actions, compute a tentative next phase
(GAME_OVER at a win threshold, else TEAM_SELECTION with the mission index
advanced), let the hook pipeline rewrite it, adopt the final phase and, if it
is TEAM_SELECTION, advance the leadership. -/
def Room.resolveMission (r : Room) (hookNextPhase : GamePhase → Option GamePhase) :
    MissionResult × Room :=
  let failCount := (r.missionActions.filter (fun kv => kv.2 = false)).length
  let success := decide (failCount = 0)
  let r1 :=
    if success then { r with succeededMissions := r.succeededMissions + 1 }
    else { r with failedMissions := r.failedMissions + 1 }
  let r2 := { r1 with missionHistory := r1.missionHistory ++ [(success, failCount)] }
  let votesOut := r2.resolveActions
  let r3 := { r2 with missionActions := [] }
  let step :=
    if r3.failedMissions ≥ MISSIONS_TO_FAIL then (r3, GamePhase.GAME_OVER)
    else if r3.succeededMissions ≥ MISSIONS_TO_SUCCEED then (r3, GamePhase.GAME_OVER)
    else ({ r3 with currentMissionIndex := r3.currentMissionIndex + 1 }, GamePhase.TEAM_SELECTION)
  let finalPhase := (hookNextPhase step.2).getD step.2
  let r5 := { step.1 with phase := finalPhase }
  let r6 := if finalPhase = GamePhase.TEAM_SELECTION then r5.nextTurn else r5
  ({ success := success, failCount := failCount, votes := votesOut }, r6)

structure AssassinationResult where
  success : Bool
  merlinId : Option String
deriving DecidableEq, Repr

/-- handleAssassination: record the target, find Merlin, succeed iff the
target is Merlin's socket id, end the game either way. -/
def Room.handleAssassination (r : Room) (targetId : String) : AssassinationResult × Room :=
  let r1 := { r with assassinationTarget := some targetId }
  let merlinId :=
    match r1.players.find? (fun p => p.specialRole = some SpecialRole.MERLIN) with
    | some m => if m.id = "" then none else some m.id
    | none => none
  ({ success := decide (merlinId = some targetId), merlinId := merlinId },
    { r1 with phase := GamePhase.GAME_OVER })

/-- getWinner: null unless GAME_OVER; a recorded assassination of Merlin gives
the spies the win; otherwise the mission-count thresholds decide (success
threshold checked first). -/
def Room.getWinner (r : Room) : Option Role :=
  if r.phase = GamePhase.GAME_OVER then
    let assassinWin : Bool :=
      match r.assassinationTarget with
      | some t =>
        t != "" &&
          (match r.players.find? (fun p => p.specialRole = some SpecialRole.MERLIN) with
           | some m => t == m.id
           | none => false)
      | none => false
    if assassinWin then some Role.SPY
    else if r.succeededMissions ≥ MISSIONS_TO_SUCCEED then some Role.RESISTANCE
    else if r.failedMissions ≥ MISSIONS_TO_FAIL then some Role.SPY
    else none
  else none

/-- The synchronous state reset performed by resetGame before the game:reset
hook fires and startGame is re-invoked (counters, history, bookkeeping and
role markers; the roster is kept). -/
def Room.resetGameState (r : Room) : Room :=
  { r with phase := GamePhase.TEAM_SELECTION, currentMissionIndex := 0,
           failedMissions := 0, succeededMissions := 0, missionHistory := [],
           voteRejections := 0, selectedTeam := [], votes := [], missionActions := [],
           assassinationTarget := none,
           players := r.players.map
             (fun p => { p with isLeader := false, role := none, specialRole := none }) }

/-- Room value with the maxPlayers field replaced (used to state that no
operation consults maxPlayers). -/
def Room.withMax (r : Room) (m : Nat) : Room :=
  { r with maxPlayers := m }

/-- Room value with the phase field replaced (used to state that the
operations do not guard on the phase). -/
def Room.withPhase (r : Room) (ph : GamePhase) : Room :=
  { r with phase := ph }

/-- Hook callback context: an open record with a stopPropagation flag; the
point-specific fields are abstracted into a payload. -/
structure HookCtx (α : Type) where
  stopPropagation : Bool := false
  payload : α
deriving DecidableEq, Repr

/-- Outcome of invoking one callback: a returned context, or a raised error
(which the pipeline catches). -/
inductive CbOutcome (α : Type) where
  | ok (c : HookCtx α)
  | raised
deriving DecidableEq, Repr

/-- HookManager.trigger: run the callbacks in registration order, threading
the context; a raised error is caught and the pipeline continues with the
next callback on the pre-error context; stopPropagation ends the run early;
with no callbacks the input context is returned. -/
def HookManager.trigger {α : Type} : List (HookCtx α → CbOutcome α) → HookCtx α → HookCtx α
  | [], ctx => ctx
  | cb :: rest, ctx =>
    match cb ctx with
    | CbOutcome.raised => HookManager.trigger rest ctx
    | CbOutcome.ok ctx2 =>
      if ctx2.stopPropagation then ctx2 else HookManager.trigger rest ctx2

/-- Registration table of one HookManager instance: extension-point name to
the callbacks in registration order. -/
abbrev HookTable (κ : Type) := List (String × List κ)

/-- HookManager.register: append the callback to the point's list (creating
the entry on first registration). -/
def tableRegister {κ : Type} (t : HookTable κ) (point : String) (cb : κ) : HookTable κ :=
  if t.any (fun e => e.1 = point) then
    t.map (fun e => if e.1 = point then (e.1, e.2 ++ [cb]) else e)
  else t ++ [(point, [cb])]

/-- Callbacks registered for one point (getCallbackCount source). -/
def tableCallbacks {κ : Type} (t : HookTable κ) (point : String) : List κ :=
  match t.find? (fun e => e.1 = point) with
  | some e => e.2
  | none => []

/-- Allocation model for HookManager instances: each `new HookManager()`
yields a fresh reference into a heap of registration tables, so object
identity of pipelines is observable. -/
structure HookHeap (κ : Type) where
  size : Nat := 0
  tab : Nat → HookTable κ := fun _ => []

def HookHeap.newManager {κ : Type} (h : HookHeap κ) : Nat × HookHeap κ :=
  (h.size, { size := h.size + 1, tab := fun i => if i = h.size then [] else h.tab i })

def HookHeap.registerAt {κ : Type} (h : HookHeap κ) (ref : Nat) (point : String) (cb : κ) :
    HookHeap κ :=
  { h with tab := fun i => if i = ref then tableRegister (h.tab i) point cb else h.tab i }

/-- One expansion's install: register all its (point, callback) pairs, in
order, on the given pipeline. -/
def installRegsOn {κ : Type} (h : HookHeap κ) (ref : Nat) (regs : List (String × κ)) :
    HookHeap κ :=
  regs.foldl (fun acc pc => acc.registerAt ref pc.1 pc.2) h

/-- GameManager.installExpansions on a specific HookManager: look each id up
in the registry of available expansions (a parameter here) and install it;
unknown ids are skipped with a warning. -/
def installExpansionsOn {κ : Type} (avail : String → Option (List (String × κ)))
    (ids : List String) (h : HookHeap κ) (ref : Nat) : HookHeap κ :=
  ids.foldl
    (fun acc eid =>
      match avail eid with
      | some regs => installRegsOn acc ref regs
      | none => acc) h

/-- Session registry state: rooms tracked by id. -/
structure GameManager where
  rooms : List (String × Room) := []

/-- GameManager.createRoom: allocate a fresh HookManager for this room
(isolated from other rooms), install the requested expansions on it, then
construct the Room holding that pipeline and track it by id. -/
def GameManager.createRoom {κ : Type} (avail : String → Option (List (String × κ)))
    (gm : GameManager) (h : HookHeap κ) (roomId : String)
    (minPlayers : Option Nat) (expansions : Option (List String)) :
    Room × GameManager × HookHeap κ :=
  let fresh := h.newManager
  let ref := fresh.1
  let h1 := fresh.2
  let h2 :=
    match expansions with
    | some ids => if 0 < ids.length then installExpansionsOn avail ids h1 ref else h1
    | none => h1
  let room : Room :=
    { id := roomId, minPlayers := minPlayers.getD MIN_PLAYERS,
      expansions := expansions.getD [], hookRef := ref }
  (room, { rooms := gm.rooms ++ [(roomId, room)] }, h2)

/-- The registration table produced by installing a list of expansions on a
fresh pipeline. -/
def expansionTable {κ : Type} (avail : String → Option (List (String × κ)))
    (ids : List String) : HookTable κ :=
  ids.foldl
    (fun t eid =>
      match avail eid with
      | some regs => regs.foldl (fun t2 pc => tableRegister t2 pc.1 pc.2) t
      | none => t) []

/-- Recursive form of the table built by installing expansions, threaded from
an arbitrary starting table (proof-friendly companion of expansionTable). -/
def expansionTableFrom {κ : Type} (avail : String → Option (List (String × κ))) :
    List String → HookTable κ → HookTable κ
  | [], t0 => t0
  | eid :: rest, t0 =>
    expansionTableFrom avail rest
      (match avail eid with
       | some regs => regs.foldl (fun t2 pc => tableRegister t2 pc.1 pc.2) t0
       | none => t0)

/-- The callbacks a room's own pipeline would run for a point. -/
def roomCallbacks {κ : Type} (h : HookHeap κ) (r : Room) (point : String) : List κ :=
  tableCallbacks (h.tab r.hookRef) point

/-- Roster shorthand for the concrete scenarios below. -/
def pl (sid pid nick : String) : Player :=
  { id := sid, playerId := pid, nickname := nick }

/-- Submit the same vote for every roster member, in roster order. -/
def voteAll (r : Room) (b : Bool) : Room :=
  r.players.foldl (fun acc p => acc.submitVote p.id b) r

/-- Room already won by the resistance (three successful missions) that still
carries a cumulative rejection streak of four; a further tallyVotes call (the
transport layer does not guard the phase) reaches the penalty. -/
def c1cexRoom : Room :=
  { id := "R1", phase := GamePhase.GAME_OVER, voteRejections := 4, succeededMissions := 3 }

/-- Mid-game room one rejection below the maximum, with only rejecting votes
recorded. -/
def c1witRoom : Room :=
  { id := "R1w", phase := GamePhase.VOTE, voteRejections := 4,
    votes := [("q1", false), ("q2", false)] }

/-- Five-player room for the cumulative-rejection scenario. -/
def c2room : Room :=
  { id := "R2", phase := GamePhase.TEAM_SELECTION,
    players := [pl "s1" "q1" "n1", pl "s2" "q2" "n2", pl "s3" "q3" "n3",
                pl "s4" "q4" "n4", pl "s5" "q5" "n5"] }

def c2r1 : Room := ((voteAll c2room false).tallyVotes).2

def c2r2 : Room := ((voteAll c2r1 true).tallyVotes).2

def c2r3 : Room := ((voteAll c2r2 false).tallyVotes).2

def c2r4 : Room := ((voteAll c2r3 false).tallyVotes).2

def c2r5 : Room := ((voteAll c2r4 false).tallyVotes).2

def c2final : TallyResult × Room := (voteAll c2r5 false).tallyVotes

/-- Three-player lobby room (mission size 2 for three players). -/
def r3room : Room :=
  { id := "R3", players := [pl "s1" "q1" "n1", pl "s2" "q2" "n2", pl "s3" "q3" "n3"] }

/-- Room with one connected player and a recorded action of a player who
disconnected after submitting. -/
def c6witRoom : Room :=
  { id := "R6w", players := [pl "sA" "pA" "nA"], selectedTeam := ["pA", "pB"],
    missionActions := [("pA", true), ("pB", false)] }

/-- Room where a disconnected player's durable id collides with the remaining
player's socket id, so the two projected result keys coincide. -/
def c6cexRoom : Room :=
  { id := "R6c", players := [pl "x" "p" "nX"], missionActions := [("p", true), ("x", false)] }

/-- Two-player room whose leader is the last roster position. -/
def c9room : Room :=
  { id := "R9", currentLeaderIndex := 1,
    players := [pl "s0" "q0" "n0", { pl "s1" "q1" "n1" with isLeader := true }] }

/-- Callback that always raises. -/
def cbRaise : HookCtx Nat → CbOutcome Nat := fun _ => CbOutcome.raised

/-- Callback that increments the payload. -/
def cbInc : HookCtx Nat → CbOutcome Nat :=
  fun c => CbOutcome.ok { c with payload := c.payload + 1 }

def ctx0 : HookCtx Nat := { stopPropagation := false, payload := 0 }

/-- Claim C9: the leader-index bound `0 ≤ currentLeaderIndex < roster.length`
is an invariant the spec asserts for every non-empty roster, but removePlayer
filters the roster without adjusting currentLeaderIndex: removing a player
while the leader occupies the last roster position leaves the index equal to
the shrunk length, violating the bound (updateLeader and the state projection
then index past the end of the roster). -/
theorem removePlayer_breaks_leader_bound :
    (c9room.removePlayer "s0").players ≠ [] ∧
    (c9room.removePlayer "s0").players.length = 1 ∧
    (c9room.removePlayer "s0").currentLeaderIndex = 1 ∧
    ¬ ((c9room.removePlayer "s0").currentLeaderIndex <
        (c9room.removePlayer "s0").players.length) := by
  decide

/-- Claim C1, counterexample: in a room that already reached three succeeded
missions while carrying a rejection streak of four (reachable, since an
approval does not reset the streak and tallyVotes has no phase guard), the
penalty tally sets penaltyApplied and GAME_OVER as claimed, but getWinner
returns RESISTANCE, not the hidden team, because the success threshold is
checked before the failure threshold. -/
theorem tallyVotes_penalty_winner_cex :
    c1cexRoom.voteRejections = MAX_REJECTIONS - 1 ∧
    (c1cexRoom.tallyVotes).1.penaltyApplied = true ∧
    (c1cexRoom.tallyVotes).2.phase = GamePhase.GAME_OVER ∧
    (c1cexRoom.tallyVotes).2.getWinner = some Role.RESISTANCE ∧
    (c1cexRoom.tallyVotes).2.getWinner ≠ some Role.SPY := by
  decide

/-- Helper: once the phase is GAME_OVER with the failure threshold reached and
the success threshold not reached, getWinner yields SPY regardless of any
recorded assassination target. -/
theorem getWinner_spy_of (r : Room) (hph : r.phase = GamePhase.GAME_OVER)
    (hs : ¬ r.succeededMissions ≥ MISSIONS_TO_SUCCEED)
    (hf : r.failedMissions ≥ MISSIONS_TO_FAIL) : r.getWinner = some Role.SPY := by
  simp only [Room.getWinner, hph, if_pos rfl]
  split_ifs <;> first
    | rfl
    | omega

/-- Claim C1 (amended): for every room whose rejection streak stands one below
the configured maximum and whose succeededMissions is still below the success
threshold, a tallyVotes call whose recorded votes lack a strict approval
majority returns penaltyApplied = true, sets the phase to GAME_OVER, makes
getWinner return the hidden team (SPY), and resets the rejection streak
to 0. -/
theorem tallyVotes_penalty_forces_spy_win (r : Room)
    (hvr : r.voteRejections = MAX_REJECTIONS - 1)
    (hsucc : r.succeededMissions < MISSIONS_TO_SUCCEED)
    (hmaj : r.approveCount ≤ r.rejectCount) :
    (r.tallyVotes).1.penaltyApplied = true ∧
    (r.tallyVotes).2.phase = GamePhase.GAME_OVER ∧
    (r.tallyVotes).2.getWinner = some Role.SPY ∧
    (r.tallyVotes).2.voteRejections = 0 := by
  have h1 : ¬ (r.approveCount > r.rejectCount) := not_lt.mpr hmaj
  have h2 : r.voteRejections + 1 ≥ MAX_REJECTIONS := by
    rw [hvr]; decide
  have hph : (r.tallyVotes).2.phase = GamePhase.GAME_OVER := by
    simp [Room.tallyVotes, h1, h2]
  have hfm : (r.tallyVotes).2.failedMissions = MISSIONS_TO_FAIL := by
    simp [Room.tallyVotes, h1, h2]
  have hsm : (r.tallyVotes).2.succeededMissions = r.succeededMissions := by
    simp [Room.tallyVotes, h1, h2]
  have hvr0 : (r.tallyVotes).2.voteRejections = 0 := by
    simp [Room.tallyVotes, h1, h2]
  have hpen : (r.tallyVotes).1.penaltyApplied = true := by
    simp [Room.tallyVotes, h1, h2]
  refine ⟨hpen, hph, ?_, hvr0⟩
  refine getWinner_spy_of _ hph ?_ ?_
  · rw [hsm]
    exact not_le.mpr hsucc
  · rw [hfm]

/-- Witness for tallyVotes_penalty_forces_spy_win at a concrete mid-game
room. -/
theorem tallyVotes_penalty_forces_spy_win_witness :
    c1witRoom.voteRejections = MAX_REJECTIONS - 1 ∧
    c1witRoom.succeededMissions < MISSIONS_TO_SUCCEED ∧
    c1witRoom.approveCount ≤ c1witRoom.rejectCount ∧
    ((c1witRoom.tallyVotes).1.penaltyApplied = true ∧
     (c1witRoom.tallyVotes).2.phase = GamePhase.GAME_OVER ∧
     (c1witRoom.tallyVotes).2.getWinner = some Role.SPY ∧
     (c1witRoom.tallyVotes).2.voteRejections = 0) :=
  ⟨by decide, by decide, by decide,
    tallyVotes_penalty_forces_spy_win c1witRoom (by decide) (by decide) (by decide)⟩

/-- Claim C2: the rejection streak is cumulative across tallies.  After any
tallyVotes call the streak equals the old streak on approval (an approval
never resets it), zero exactly when the terminal penalty fired, and the old
streak plus one on an ordinary rejection; the explicit game reset zeroes it;
and in the concrete sequence reject, approve, reject, reject, reject, reject
the fifth rejection overall (after the intervening approval) still triggers
the penalty. -/
theorem rejection_streak_cumulative :
    (∀ r : Room,
      (r.tallyVotes).2.voteRejections =
        (if (r.tallyVotes).1.approved then r.voteRejections
         else if (r.tallyVotes).1.penaltyApplied then 0
         else r.voteRejections + 1)) ∧
    (∀ r : Room, (r.resetGameState).voteRejections = 0) ∧
    ((voteAll c2room false).tallyVotes).1.approved = false ∧
    c2r1.voteRejections = 1 ∧
    ((voteAll c2r1 true).tallyVotes).1.approved = true ∧
    c2r2.voteRejections = 1 ∧
    c2r3.voteRejections = 2 ∧
    c2r4.voteRejections = 3 ∧
    c2r5.voteRejections = 4 ∧
    ((voteAll c2r5 false).tallyVotes).1.approved = false ∧
    c2final.1.penaltyApplied = true ∧
    c2final.2.voteRejections = 0 ∧
    c2final.2.phase = GamePhase.GAME_OVER ∧
    c2final.2.getWinner = some Role.SPY := by
  refine ⟨?_, fun r => rfl, by decide, by decide, by decide, by decide, by decide,
    by decide, by decide, by decide, by decide, by decide, by decide, by decide⟩
  intro r
  by_cases hap : r.approveCount > r.rejectCount
  · simp [Room.tallyVotes, hap]
  · by_cases hp : r.voteRejections + 1 ≥ MAX_REJECTIONS
    · simp [Room.tallyVotes, hap, hp]
    · simp [Room.tallyVotes, hap, hp, Room.nextTurn, Room.updateLeader]

theorem resolveIds_eq_none_iff (r : Room) (l : List String) :
    r.resolveIds l = none ↔ ∃ sid ∈ l, r.getPlayer sid = none := by
  induction l with
  | nil => simp [Room.resolveIds]
  | cons a t ih =>
    simp only [Room.resolveIds]
    cases h : r.getPlayer a with
    | none => simp [h]
    | some p => simp [h, ih]

theorem resolveIds_some_forall2 (r : Room) :
    ∀ (l : List String) (pids : List String), r.resolveIds l = some pids →
      List.Forall₂ (fun sid pid => ∃ p, r.getPlayer sid = some p ∧ p.playerId = pid) l pids := by
  intro l
  induction l with
  | nil =>
    intro pids h
    simp only [Room.resolveIds, Option.some.injEq] at h
    subst h
    exact List.Forall₂.nil
  | cons a t ih =>
    intro pids h
    simp only [Room.resolveIds] at h
    cases hg : r.getPlayer a with
    | none => rw [hg] at h; cases h
    | some p =>
      rw [hg] at h
      cases ht : r.resolveIds t with
      | none => rw [ht] at h; cases h
      | some ps =>
        rw [ht] at h
        simp only [Option.map_some', Option.some.injEq] at h
        subst h
        exact List.Forall₂.cons ⟨p, hg, rfl⟩ (ih ps ht)

/-- Claim C7: selectTeam returns false exactly when the proposed list's length
differs from the configured team size for the current roster size and mission
index, or some socket id does not resolve to a roster member; any failure
leaves the room unchanged; success stores the team as durable playerIds (in
order, each the durable id of the corresponding proposed member), moves the
phase to VOTE, and touches nothing else. -/
theorem selectTeam_validation_iff (r : Room) (ids : List String) :
    ((r.selectTeam ids).1 = false ↔
      ids.length ≠ r.getCurrentMissionSize ∨ ∃ sid ∈ ids, r.getPlayer sid = none) ∧
    ((r.selectTeam ids).1 = false → (r.selectTeam ids).2 = r) ∧
    ((r.selectTeam ids).1 = true →
      (r.selectTeam ids).2.phase = GamePhase.VOTE ∧
      r.resolveIds ids = some ((r.selectTeam ids).2.selectedTeam) ∧
      List.Forall₂ (fun sid pid => ∃ p, r.getPlayer sid = some p ∧ p.playerId = pid)
        ids ((r.selectTeam ids).2.selectedTeam) ∧
      (r.selectTeam ids).2.players = r.players ∧
      (r.selectTeam ids).2.votes = r.votes ∧
      (r.selectTeam ids).2.voteRejections = r.voteRejections ∧
      (r.selectTeam ids).2.missionActions = r.missionActions ∧
      (r.selectTeam ids).2.currentLeaderIndex = r.currentLeaderIndex ∧
      (r.selectTeam ids).2.currentMissionIndex = r.currentMissionIndex) := by
  by_cases hlen : ids.length = r.getCurrentMissionSize
  · cases hres : r.resolveIds ids with
    | none =>
      have hmiss : ∃ sid ∈ ids, r.getPlayer sid = none :=
        (resolveIds_eq_none_iff r ids).mp hres
      simp [Room.selectTeam, hlen, hres, hmiss]
    | some pids =>
      have hmiss : ¬ ∃ sid ∈ ids, r.getPlayer sid = none := by
        rw [← resolveIds_eq_none_iff r ids, hres]
        simp
      refine ⟨by simp [Room.selectTeam, hlen, hres, hmiss], ?_, ?_⟩
      · intro hfalse
        simp [Room.selectTeam, hlen, hres] at hfalse
      · intro _
        refine ⟨by simp [Room.selectTeam, hlen, hres], ?_, ?_, by simp [Room.selectTeam, hlen, hres],
          by simp [Room.selectTeam, hlen, hres], by simp [Room.selectTeam, hlen, hres],
          by simp [Room.selectTeam, hlen, hres], by simp [Room.selectTeam, hlen, hres],
          by simp [Room.selectTeam, hlen, hres]⟩
        · simp [Room.selectTeam, hlen, hres]
        · have hst : (r.selectTeam ids).2.selectedTeam = pids := by
            simp [Room.selectTeam, hlen, hres]
          rw [hst]
          exact resolveIds_some_forall2 r ids pids hres
  · simp [Room.selectTeam, hlen]

/-- Witness for selectTeam_validation_iff: for three players the first mission
needs two members, so a one-member proposal fails and leaves the room
unchanged, while a two-member proposal succeeds, stores durable ids, and
enters VOTE. -/
theorem selectTeam_validation_iff_witness :
    ((r3room.selectTeam ["s1"]).1 = false ∧ (r3room.selectTeam ["s1"]).2 = r3room) ∧
    ((r3room.selectTeam ["s1", "s2"]).1 = true ∧
     (r3room.selectTeam ["s1", "s2"]).2.phase = GamePhase.VOTE ∧
     (r3room.selectTeam ["s1", "s2"]).2.selectedTeam = ["q1", "q2"]) :=
  ⟨⟨by decide, (selectTeam_validation_iff r3room ["s1"]).2.1 (by decide)⟩,
   ⟨by decide, ((selectTeam_validation_iff r3room ["s1", "s2"]).2.2 (by decide)).1, by decide⟩⟩

theorem resolveIds_withPhase (r : Room) (ph : GamePhase) (l : List String) :
    (r.withPhase ph).resolveIds l = r.resolveIds l := by
  induction l with
  | nil => rfl
  | cons a t ih =>
    simp only [Room.resolveIds, ih]
    rfl

/-- Claim C4, counterexample: selectTeam called while the room is still in
LOBBY (a phase in which team selection is not a valid action) does not report
failure: with a size-correct roster proposal it succeeds and mutates the room,
moving the phase to VOTE. -/
theorem selectTeam_wrong_phase_succeeds_cex :
    r3room.phase = GamePhase.LOBBY ∧
    (r3room.selectTeam ["s1", "s2"]).1 = true ∧
    (r3room.selectTeam ["s1", "s2"]).2.phase = GamePhase.VOTE ∧
    (r3room.selectTeam ["s1", "s2"]).2 ≠ r3room := by
  decide

/-- Claim C4 (amended): the mutating Room operations never consult the phase
at all — the success or failure of selectTeam, submitVote and
submitMissionAction is identical in every phase; what they do validate is the
input (team size, known ids, membership in the selected team), and on those
validation failures they report through a boolean return or a silent no-op,
leave the room unchanged, and never throw. -/
theorem operations_ignore_phase_reject_invalid (r : Room) (ph : GamePhase)
    (ids : List String) (sid : String) (b : Bool) :
    ((r.withPhase ph).selectTeam ids).1 = (r.selectTeam ids).1 ∧
    ((r.withPhase ph).submitMissionAction sid b).1 = (r.submitMissionAction sid b).1 ∧
    ((r.withPhase ph).submitVote sid b).votes = (r.submitVote sid b).votes ∧
    ((r.selectTeam ids).1 = false → (r.selectTeam ids).2 = r) ∧
    ((r.submitMissionAction sid b).1 = false → (r.submitMissionAction sid b).2 = r) ∧
    (r.getPlayer sid = none → r.submitVote sid b = r) := by
  refine ⟨?_, ?_, ?_, ?_, ?_, ?_⟩
  · have hsz : (r.withPhase ph).getCurrentMissionSize = r.getCurrentMissionSize := rfl
    simp only [Room.selectTeam, resolveIds_withPhase, hsz]
    by_cases hlen : ids.length ≠ r.getCurrentMissionSize
    · simp [hlen]
    · simp only [hlen, if_false]
      cases r.resolveIds ids <;> simp
  · have hgp : (r.withPhase ph).getPlayer sid = r.getPlayer sid := rfl
    unfold Room.submitMissionAction
    rw [hgp]
    cases r.getPlayer sid with
    | none => rfl
    | some p =>
      have hsel : (r.withPhase ph).selectedTeam = r.selectedTeam := rfl
      rw [hsel]
      dsimp only
      split_ifs <;> rfl
  · have hgp : (r.withPhase ph).getPlayer sid = r.getPlayer sid := rfl
    unfold Room.submitVote
    rw [hgp]
    cases r.getPlayer sid with
    | none => rfl
    | some p =>
      dsimp only
      split_ifs <;> rfl
  · intro hfalse
    by_cases hlen : ids.length = r.getCurrentMissionSize
    · cases hres : r.resolveIds ids with
      | none => simp [Room.selectTeam, hlen, hres]
      | some pids => simp [Room.selectTeam, hlen, hres] at hfalse
    · simp [Room.selectTeam, hlen]
  · intro hfalse
    unfold Room.submitMissionAction at hfalse ⊢
    cases hg : r.getPlayer sid with
    | none => rfl
    | some p =>
      rw [hg] at hfalse
      dsimp only at hfalse ⊢
      split_ifs at hfalse ⊢ <;> first
        | rfl
        | simp at hfalse
  · intro hnone
    unfold Room.submitVote
    rw [hnone]

/-- Witness for operations_ignore_phase_reject_invalid: in the concrete
three-player room a wrong-size proposal fails and leaves the room untouched,
an unknown socket id cannot vote, and selectTeam behaves the same whether the
phase is LOBBY or MISSION. -/
theorem operations_ignore_phase_reject_invalid_witness :
    ((r3room.withPhase GamePhase.MISSION).selectTeam ["s1", "s2"]).1 =
      (r3room.selectTeam ["s1", "s2"]).1 ∧
    ((r3room.selectTeam ["s1"]).1 = false → (r3room.selectTeam ["s1"]).2 = r3room) ∧
    (r3room.getPlayer "zz" = none → r3room.submitVote "zz" true = r3room) ∧
    (r3room.selectTeam ["s1"]).2 = r3room ∧
    r3room.submitVote "zz" true = r3room :=
  ⟨(operations_ignore_phase_reject_invalid r3room GamePhase.MISSION ["s1", "s2"] "zz" true).1,
   (operations_ignore_phase_reject_invalid r3room GamePhase.MISSION ["s1"] "zz" true).2.2.2.1,
   (operations_ignore_phase_reject_invalid r3room GamePhase.MISSION ["s1"] "zz" true).2.2.2.2.2,
   (operations_ignore_phase_reject_invalid r3room GamePhase.MISSION ["s1"] "zz" true).2.2.2.1
     (by decide),
   (operations_ignore_phase_reject_invalid r3room GamePhase.MISSION ["s1"] "zz" true).2.2.2.2.2
     (by decide)⟩

theorem reconnectList_decomp (pid nsid : String) :
    ∀ ps : List Player, ps.any (fun p => p.playerId = pid) = true →
      ∃ pre q post, ps = pre ++ q :: post ∧ (∀ x ∈ pre, x.playerId ≠ pid) ∧
        q.playerId = pid ∧
        reconnectList pid nsid ps = pre ++ { q with id := nsid } :: post := by
  intro ps
  induction ps with
  | nil => intro h; simp at h
  | cons p rest ih =>
    intro h
    by_cases hp : p.playerId = pid
    · exact ⟨[], p, rest, by simp, by simp, hp, by simp [reconnectList, hp]⟩
    · have hrest : rest.any (fun x => x.playerId = pid) = true := by
        simp only [List.any_cons, Bool.or_eq_true, decide_eq_true_eq] at h
        rcases h with h | h
        · exact absurd h hp
        · exact h
      obtain ⟨pre, q, post, he, hpre, hq, hrl⟩ := ih hrest
      refine ⟨p :: pre, q, post, by simp [he], ?_, hq, ?_⟩
      · intro x hx
        rcases List.mem_cons.mp hx with hx | hx
        · subst hx; exact hp
        · exact hpre x hx
      · simp [reconnectList, hp, hrl]

/-- Claim C5: for a known durable id, reconnect returns true and rewrites only
that player's transient connection id (the first roster entry carrying the
durable id), leaving every recorded vote and mission action — both keyed by
durable id — and all other room state unchanged, so recorded actions stay
attributed to the same durable id; for an unknown durable id it returns false
and changes nothing. -/
theorem reconnectPlayer_preserves_bookkeeping (r : Room) (did nsid : String) :
    ((r.getPlayerByPlayerId did).isSome = true →
      (r.reconnectPlayer did nsid).1 = true ∧
      (r.reconnectPlayer did nsid).2.votes = r.votes ∧
      (r.reconnectPlayer did nsid).2.missionActions = r.missionActions ∧
      (r.reconnectPlayer did nsid).2.selectedTeam = r.selectedTeam ∧
      (r.reconnectPlayer did nsid).2.phase = r.phase ∧
      (r.reconnectPlayer did nsid).2.voteRejections = r.voteRejections ∧
      (r.reconnectPlayer did nsid).2.players.map Player.playerId =
        r.players.map Player.playerId ∧
      (∃ pre q post, r.players = pre ++ q :: post ∧ (∀ x ∈ pre, x.playerId ≠ did) ∧
        q.playerId = did ∧
        (r.reconnectPlayer did nsid).2.players = pre ++ { q with id := nsid } :: post)) ∧
    (r.getPlayerByPlayerId did = none → r.reconnectPlayer did nsid = (false, r)) := by
  constructor
  · intro hsome
    have hany : r.players.any (fun p => p.playerId = did) = true := by
      rcases Option.isSome_iff_exists.mp hsome with ⟨p, hp⟩
      have hmem := List.mem_of_find?_eq_some hp
      have hpred := List.find?_some hp
      simp only [decide_eq_true_eq] at hpred
      simp only [List.any_eq_true, decide_eq_true_eq]
      exact ⟨p, hmem, hpred⟩
    obtain ⟨pre, q, post, he, hpre, hq, hrl⟩ := reconnectList_decomp did nsid r.players hany
    have hres : r.reconnectPlayer did nsid =
        (true, { r with players := reconnectList did nsid r.players }) := by
      unfold Room.reconnectPlayer
      rw [if_pos hany]
    refine ⟨by rw [hres], by rw [hres], by rw [hres], by rw [hres], by rw [hres],
      by rw [hres], ?_, ?_⟩
    · rw [hres]
      dsimp only
      rw [hrl, he]
      simp
    · refine ⟨pre, q, post, he, hpre, hq, ?_⟩
      rw [hres]
      exact hrl
  · intro hnone
    have hnot : ¬ ∃ x ∈ r.players, x.playerId = did := by
      rw [Room.getPlayerByPlayerId, List.find?_eq_none] at hnone
      rintro ⟨x, hx, hpx⟩
      exact absurd (by simpa using hpx) (by simpa using hnone x hx)
    have hany : r.players.any (fun p => p.playerId = did) = false := by
      rw [List.any_eq_false]
      intro x hx hpx
      exact hnot ⟨x, hx, by simpa using hpx⟩
    unfold Room.reconnectPlayer
    simp [hany]

/-- Witness for reconnectPlayer_preserves_bookkeeping at the three-player
room: durable id q2 is known, reconnect succeeds, votes and mission actions
are untouched. -/
theorem reconnectPlayer_preserves_bookkeeping_witness :
    (r3room.getPlayerByPlayerId "q2").isSome = true ∧
    (r3room.reconnectPlayer "q2" "z9").1 = true ∧
    (r3room.reconnectPlayer "q2" "z9").2.votes = r3room.votes ∧
    (r3room.reconnectPlayer "q2" "z9").2.missionActions = r3room.missionActions :=
  ⟨by decide,
   ((reconnectPlayer_preserves_bookkeeping r3room "q2" "z9").1 (by decide)).1,
   ((reconnectPlayer_preserves_bookkeeping r3room "q2" "z9").1 (by decide)).2.1,
   ((reconnectPlayer_preserves_bookkeeping r3room "q2" "z9").1 (by decide)).2.2.1⟩

theorem foldl_mapSet_append (key : String → String) :
    ∀ (l : List (String × Bool)) (acc : List (String × Bool)),
      (l.map (fun kv => key kv.1)).Nodup →
      (∀ kv ∈ l, acc.any (fun e => e.1 = key kv.1) = false) →
      l.foldl (fun acc2 kv => mapSet acc2 (key kv.1) kv.2) acc =
        acc ++ l.map (fun kv => (key kv.1, kv.2)) := by
  intro l
  induction l with
  | nil => intro acc _ _; simp
  | cons kv t ih =>
    intro acc hnd hdisj
    have hstep : mapSet acc (key kv.1) kv.2 = acc ++ [(key kv.1, kv.2)] := by
      unfold mapSet
      rw [if_neg]
      rw [hdisj kv (List.mem_cons_self kv t)]
      simp
    rw [List.foldl_cons, hstep]
    have hnd2 : (t.map (fun kv => key kv.1)).Nodup := (List.nodup_cons.mp hnd).2
    have hhead : key kv.1 ∉ t.map (fun kv => key kv.1) := (List.nodup_cons.mp hnd).1
    rw [ih (acc ++ [(key kv.1, kv.2)]) hnd2 ?_]
    · simp
    · intro kv2 hkv2
      rw [List.any_append]
      have h1 : acc.any (fun e => e.1 = key kv2.1) = false :=
        hdisj kv2 (List.mem_cons_of_mem kv hkv2)
      have h2 : ¬ key kv.1 = key kv2.1 := by
        intro heq
        exact hhead (heq ▸ List.mem_map_of_mem (fun kv => key kv.1) hkv2)
      simp [h1, h2]

theorem resolveActions_counters (r : Room) (s f : Nat) (hist : List (Bool × Nat)) :
    Room.resolveActions
      { r with succeededMissions := s, failedMissions := f, missionHistory := hist } =
      r.resolveActions := rfl

/-- Claim C6 (amended): resolveMission reports success exactly when the count
of non-success recorded actions (the sabotage count) is zero, and — provided
the projected result keys are pairwise distinct, in particular when no
disconnected player's durable id coincides with another roster member's
connection id — the returned per-player map holds exactly one entry for every
recorded action, including actions of players no longer on the roster (their
entry is keyed by the durable id). -/
theorem resolveMission_success_iff_and_keeps_actions (r : Room)
    (hook : GamePhase → Option GamePhase) :
    ((r.resolveMission hook).1.success = true ↔ (r.resolveMission hook).1.failCount = 0) ∧
    (r.resolveMission hook).1.failCount =
      (r.missionActions.filter (fun kv => kv.2 = false)).length ∧
    ((r.missionActions.map (fun kv => r.resolveKey kv.1)).Nodup →
      (r.resolveMission hook).1.votes =
        r.missionActions.map (fun kv => (r.resolveKey kv.1, kv.2)) ∧
      (r.resolveMission hook).1.votes.length = r.missionActions.length ∧
      ∀ kv ∈ r.missionActions, (r.resolveKey kv.1, kv.2) ∈ (r.resolveMission hook).1.votes) := by
  have hres1 : (r.resolveMission hook).1 =
      { success := decide ((r.missionActions.filter (fun kv => kv.2 = false)).length = 0),
        failCount := (r.missionActions.filter (fun kv => kv.2 = false)).length,
        votes := r.resolveActions } := by
    unfold Room.resolveMission
    by_cases hz : (r.missionActions.filter (fun kv => kv.2 = false)).length = 0
    · simp [hz, resolveActions_counters]
      rw [if_pos (by rw [hz]; rfl)]
      exact resolveActions_counters r _ _ _
    · simp [hz, resolveActions_counters]
      rw [if_neg (by simpa using hz)]
      exact resolveActions_counters r _ _ _
  refine ⟨by rw [hres1]; simp, by rw [hres1], ?_⟩
  intro hnd
  have hacts : r.resolveActions = r.missionActions.map (fun kv => (r.resolveKey kv.1, kv.2)) := by
    unfold Room.resolveActions
    rw [foldl_mapSet_append (r.resolveKey) r.missionActions [] hnd (fun kv _ => rfl)]
    simp
  rw [hres1, hacts]
  refine ⟨rfl, by simp, ?_⟩
  intro kv hkv
  simp only [List.mem_map]
  exact ⟨kv, hkv, rfl⟩

/-- Witness for resolveMission_success_iff_and_keeps_actions: the room keeps
entries for both recorded actions even though player pB disconnected between
submission and resolution (their entry keyed by durable id pB). -/
theorem resolveMission_success_iff_and_keeps_actions_witness :
    (c6witRoom.missionActions.map (fun kv => c6witRoom.resolveKey kv.1)).Nodup ∧
    (c6witRoom.resolveMission idHook).1.votes =
      c6witRoom.missionActions.map (fun kv => (c6witRoom.resolveKey kv.1, kv.2)) ∧
    (c6witRoom.resolveMission idHook).1.votes.length = c6witRoom.missionActions.length ∧
    ((c6witRoom.resolveMission idHook).1.success = true ↔
      (c6witRoom.resolveMission idHook).1.failCount = 0) :=
  ⟨by decide,
   ((resolveMission_success_iff_and_keeps_actions c6witRoom idHook).2.2 (by decide)).1,
   ((resolveMission_success_iff_and_keeps_actions c6witRoom idHook).2.2 (by decide)).2.1,
   (resolveMission_success_iff_and_keeps_actions c6witRoom idHook).1⟩

/-- Claim C6, counterexample: the result map is keyed by current connection id
when the durable id resolves, else by durable id; when a disconnected
player's durable id equals a remaining player's connection id the two keys
collide and Map.set drops one recorded action — here two actions are recorded
but the returned map holds a single entry. -/
theorem resolveMission_key_collision_cex :
    c6cexRoom.missionActions.length = 2 ∧
    (c6cexRoom.resolveMission idHook).1.votes = [("x", false)] ∧
    (c6cexRoom.resolveMission idHook).1.votes.length = 1 := by
  decide

theorem trigger_raised_step {α : Type} (cb : HookCtx α → CbOutcome α)
    (rest : List (HookCtx α → CbOutcome α)) (ctx : HookCtx α)
    (h : cb ctx = CbOutcome.raised) :
    HookManager.trigger (cb :: rest) ctx = HookManager.trigger rest ctx := by
  conv =>
    lhs
    unfold HookManager.trigger
  rw [h]

theorem trigger_ok_step {α : Type} (cb : HookCtx α → CbOutcome α)
    (rest : List (HookCtx α → CbOutcome α)) (ctx ctx2 : HookCtx α)
    (h : cb ctx = CbOutcome.ok ctx2) :
    HookManager.trigger (cb :: rest) ctx =
      if ctx2.stopPropagation then ctx2 else HookManager.trigger rest ctx2 := by
  conv =>
    lhs
    unfold HookManager.trigger
  rw [h]

/-- Claim C8: a callback that raises is invisible to the rest of the pipeline:
trigger catches the error and continues with the next callback applied to the
pre-error context, so running a list with an always-raising callback inserted
anywhere equals running the list without it — in particular trigger always
returns a context normally instead of propagating the callback's error (the
model makes the catch explicit: raising outcomes never escape trigger). -/
theorem trigger_isolates_callback_faults {α : Type}
    (pre post : List (HookCtx α → CbOutcome α))
    (cb : HookCtx α → CbOutcome α) (ctx : HookCtx α)
    (hraise : ∀ c, cb c = CbOutcome.raised) :
    HookManager.trigger (pre ++ cb :: post) ctx = HookManager.trigger (pre ++ post) ctx := by
  induction pre generalizing ctx with
  | nil =>
    rw [List.nil_append, List.nil_append, trigger_raised_step cb post ctx (hraise ctx)]
  | cons f rest ih =>
    rw [List.cons_append, List.cons_append]
    cases hf : f ctx with
    | raised =>
      rw [trigger_raised_step f (rest ++ cb :: post) ctx hf,
        trigger_raised_step f (rest ++ post) ctx hf]
      exact ih ctx
    | ok c2 =>
      rw [trigger_ok_step f (rest ++ cb :: post) ctx c2 hf,
        trigger_ok_step f (rest ++ post) ctx c2 hf]
      by_cases hstop : c2.stopPropagation
      · simp [hstop]
      · simp only [hstop, if_false]
        exact ih c2

/-- Witness for trigger_isolates_callback_faults with a concrete pipeline: an
always-raising callback between two incrementing callbacks is skipped. -/
theorem trigger_isolates_callback_faults_witness :
    (∀ c : HookCtx Nat, cbRaise c = CbOutcome.raised) ∧
    HookManager.trigger [cbInc, cbRaise, cbInc] ctx0 =
      HookManager.trigger [cbInc, cbInc] ctx0 :=
  ⟨fun _ => rfl, trigger_isolates_callback_faults [cbInc] [cbInc] cbRaise ctx0 (fun _ => rfl)⟩

theorem registerAt_tab_ne {κ : Type} (h : HookHeap κ) (ref i : Nat) (pt : String) (cb : κ)
    (hne : i ≠ ref) : (h.registerAt ref pt cb).tab i = h.tab i := by
  simp [HookHeap.registerAt, hne]

theorem registerAt_tab_self {κ : Type} (h : HookHeap κ) (ref : Nat) (pt : String) (cb : κ) :
    (h.registerAt ref pt cb).tab ref = tableRegister (h.tab ref) pt cb := by
  simp [HookHeap.registerAt]

theorem installRegsOn_size {κ : Type} (regs : List (String × κ)) :
    ∀ (h : HookHeap κ) (ref : Nat), (installRegsOn h ref regs).size = h.size := by
  induction regs with
  | nil => intro h ref; rfl
  | cons pc t ih =>
    intro h ref
    show (installRegsOn (h.registerAt ref pc.1 pc.2) ref t).size = h.size
    rw [ih]
    rfl

theorem installRegsOn_tab_ne {κ : Type} (regs : List (String × κ)) :
    ∀ (h : HookHeap κ) (ref i : Nat), i ≠ ref →
      (installRegsOn h ref regs).tab i = h.tab i := by
  induction regs with
  | nil => intro h ref i _; rfl
  | cons pc t ih =>
    intro h ref i hne
    show (installRegsOn (h.registerAt ref pc.1 pc.2) ref t).tab i = h.tab i
    rw [ih _ ref i hne, registerAt_tab_ne h ref i pc.1 pc.2 hne]

theorem installRegsOn_tab_self {κ : Type} (regs : List (String × κ)) :
    ∀ (h : HookHeap κ) (ref : Nat),
      (installRegsOn h ref regs).tab ref =
        regs.foldl (fun t pc => tableRegister t pc.1 pc.2) (h.tab ref) := by
  induction regs with
  | nil => intro h ref; rfl
  | cons pc t ih =>
    intro h ref
    show (installRegsOn (h.registerAt ref pc.1 pc.2) ref t).tab ref = _
    rw [ih, registerAt_tab_self]
    rfl

theorem installExpansionsOn_size {κ : Type} (avail : String → Option (List (String × κ)))
    (ids : List String) : ∀ (h : HookHeap κ) (ref : Nat),
      (installExpansionsOn avail ids h ref).size = h.size := by
  induction ids with
  | nil => intro h ref; rfl
  | cons eid t ih =>
    intro h ref
    show (installExpansionsOn avail t
      (match avail eid with
       | some regs => installRegsOn h ref regs
       | none => h) ref).size = h.size
    cases hav : avail eid with
    | none => exact ih h ref
    | some regs =>
      dsimp only
      rw [ih _ ref, installRegsOn_size]

theorem installExpansionsOn_tab_ne {κ : Type} (avail : String → Option (List (String × κ)))
    (ids : List String) : ∀ (h : HookHeap κ) (ref i : Nat), i ≠ ref →
      (installExpansionsOn avail ids h ref).tab i = h.tab i := by
  induction ids with
  | nil => intro h ref i _; rfl
  | cons eid t ih =>
    intro h ref i hne
    show (installExpansionsOn avail t
      (match avail eid with
       | some regs => installRegsOn h ref regs
       | none => h) ref).tab i = h.tab i
    cases hav : avail eid with
    | none => exact ih h ref i hne
    | some regs =>
      dsimp only
      rw [ih _ ref i hne, installRegsOn_tab_ne regs h ref i hne]

theorem expansionTable_eq_from {κ : Type} (avail : String → Option (List (String × κ))) :
    ∀ (ids : List String) (t0 : HookTable κ),
      ids.foldl
        (fun t eid =>
          match avail eid with
          | some regs => regs.foldl (fun t2 pc => tableRegister t2 pc.1 pc.2) t
          | none => t) t0 = expansionTableFrom avail ids t0 := by
  intro ids
  induction ids with
  | nil => intro t0; rfl
  | cons eid t ih =>
    intro t0
    rw [List.foldl_cons]
    exact ih _

theorem installExpansionsOn_tab_self {κ : Type} (avail : String → Option (List (String × κ)))
    (ids : List String) : ∀ (h : HookHeap κ) (ref : Nat),
      (installExpansionsOn avail ids h ref).tab ref =
        expansionTableFrom avail ids (h.tab ref) := by
  induction ids with
  | nil => intro h ref; rfl
  | cons eid t ih =>
    intro h ref
    rw [expansionTableFrom]
    show (installExpansionsOn avail t
      (match avail eid with
       | some regs => installRegsOn h ref regs
       | none => h) ref).tab ref =
      expansionTableFrom avail t
        (match avail eid with
         | some regs => regs.foldl (fun t2 pc => tableRegister t2 pc.1 pc.2) (h.tab ref)
         | none => h.tab ref)
    cases hav : avail eid with
    | none => exact ih h ref
    | some regs =>
      dsimp only
      rw [ih _ ref, installRegsOn_tab_self]

theorem createRoom_room_hookRef {κ : Type} (avail : String → Option (List (String × κ)))
    (gm : GameManager) (h : HookHeap κ) (roomId : String) (m : Option Nat)
    (e : Option (List String)) :
    (GameManager.createRoom avail gm h roomId m e).1.hookRef = h.size := rfl

theorem createRoom_heap_size {κ : Type} (avail : String → Option (List (String × κ)))
    (gm : GameManager) (h : HookHeap κ) (roomId : String) (m : Option Nat)
    (e : Option (List String)) :
    (GameManager.createRoom avail gm h roomId m e).2.2.size = h.size + 1 := by
  unfold GameManager.createRoom
  cases e with
  | none => rfl
  | some ids =>
    by_cases hl : 0 < ids.length
    · simp only [hl, if_true, if_pos]
      rw [installExpansionsOn_size]
      rfl
    · simp only [hl, if_false, if_neg]
      rfl

theorem createRoom_heap_tab_ne {κ : Type} (avail : String → Option (List (String × κ)))
    (gm : GameManager) (h : HookHeap κ) (roomId : String) (m : Option Nat)
    (e : Option (List String)) (i : Nat) (hi : i ≠ h.size) :
    (GameManager.createRoom avail gm h roomId m e).2.2.tab i = h.tab i := by
  unfold GameManager.createRoom
  cases e with
  | none =>
    show (h.newManager.2).tab i = h.tab i
    simp [HookHeap.newManager, hi]
  | some ids =>
    by_cases hl : 0 < ids.length
    · simp only [hl, if_true, if_pos]
      show (installExpansionsOn avail ids h.newManager.2 h.size).tab i = h.tab i
      rw [installExpansionsOn_tab_ne avail ids _ h.size i hi]
      show (h.newManager.2).tab i = h.tab i
      simp [HookHeap.newManager, hi]
    · simp only [hl, if_false, if_neg]
      show (h.newManager.2).tab i = h.tab i
      simp [HookHeap.newManager, hi]

theorem createRoom_heap_tab_self {κ : Type} (avail : String → Option (List (String × κ)))
    (gm : GameManager) (h : HookHeap κ) (roomId : String) (m : Option Nat)
    (e : Option (List String)) :
    (GameManager.createRoom avail gm h roomId m e).2.2.tab h.size =
      expansionTable avail (e.getD []) := by
  unfold GameManager.createRoom
  cases e with
  | none =>
    show (h.newManager.2).tab h.size = expansionTable avail []
    simp [HookHeap.newManager, expansionTable]
  | some ids =>
    by_cases hl : 0 < ids.length
    · simp only [hl, if_true, if_pos]
      show (installExpansionsOn avail ids h.newManager.2 h.size).tab h.size =
        expansionTable avail ((some ids).getD [])
      rw [installExpansionsOn_tab_self avail ids _ h.size]
      have hfresh : (h.newManager.2).tab h.size = [] := by
        simp [HookHeap.newManager]
      rw [hfresh]
      show expansionTableFrom avail ids [] = expansionTable avail ids
      rw [← expansionTable_eq_from avail ids []]
      rfl
    · have hids : ids = [] := List.length_eq_zero.mp (by omega)
      subst hids
      simp only [if_neg hl]
      show (h.newManager.2).tab h.size = expansionTable avail []
      simp [HookHeap.newManager, expansionTable]

/-- Claim C3: the session registry allocates a fresh, private hook pipeline
for every createRoom call: two created rooms always reference distinct
HookManager instances, each room's registration table holds exactly the
registrations of its own requested expansions, and so the callbacks a room's
pipeline runs for any extension point come only from that room's own install —
a callback registered while installing one room's expansions never runs when
the other room triggers. -/
theorem createRoom_isolated_pipelines {κ : Type}
    (avail : String → Option (List (String × κ))) (gm : GameManager) (h : HookHeap κ)
    (id1 id2 : String) (m1 m2 : Option Nat) (e1 e2 : Option (List String)) (point : String) :
    (GameManager.createRoom avail gm h id1 m1 e1).1.hookRef ≠
      (GameManager.createRoom avail (GameManager.createRoom avail gm h id1 m1 e1).2.1
        (GameManager.createRoom avail gm h id1 m1 e1).2.2 id2 m2 e2).1.hookRef ∧
    (GameManager.createRoom avail (GameManager.createRoom avail gm h id1 m1 e1).2.1
        (GameManager.createRoom avail gm h id1 m1 e1).2.2 id2 m2 e2).2.2.tab
        (GameManager.createRoom avail gm h id1 m1 e1).1.hookRef =
      expansionTable avail (e1.getD []) ∧
    (GameManager.createRoom avail (GameManager.createRoom avail gm h id1 m1 e1).2.1
        (GameManager.createRoom avail gm h id1 m1 e1).2.2 id2 m2 e2).2.2.tab
        (GameManager.createRoom avail (GameManager.createRoom avail gm h id1 m1 e1).2.1
          (GameManager.createRoom avail gm h id1 m1 e1).2.2 id2 m2 e2).1.hookRef =
      expansionTable avail (e2.getD []) ∧
    roomCallbacks
        (GameManager.createRoom avail (GameManager.createRoom avail gm h id1 m1 e1).2.1
          (GameManager.createRoom avail gm h id1 m1 e1).2.2 id2 m2 e2).2.2
        (GameManager.createRoom avail gm h id1 m1 e1).1 point =
      tableCallbacks (expansionTable avail (e1.getD [])) point ∧
    roomCallbacks
        (GameManager.createRoom avail (GameManager.createRoom avail gm h id1 m1 e1).2.1
          (GameManager.createRoom avail gm h id1 m1 e1).2.2 id2 m2 e2).2.2
        (GameManager.createRoom avail (GameManager.createRoom avail gm h id1 m1 e1).2.1
          (GameManager.createRoom avail gm h id1 m1 e1).2.2 id2 m2 e2).1 point =
      tableCallbacks (expansionTable avail (e2.getD [])) point := by
  have href1 : (GameManager.createRoom avail gm h id1 m1 e1).1.hookRef = h.size := rfl
  have hsize1 : (GameManager.createRoom avail gm h id1 m1 e1).2.2.size = h.size + 1 :=
    createRoom_heap_size avail gm h id1 m1 e1
  have href2 : (GameManager.createRoom avail (GameManager.createRoom avail gm h id1 m1 e1).2.1
      (GameManager.createRoom avail gm h id1 m1 e1).2.2 id2 m2 e2).1.hookRef =
      (GameManager.createRoom avail gm h id1 m1 e1).2.2.size := rfl
  have hne : h.size ≠ (GameManager.createRoom avail gm h id1 m1 e1).2.2.size := by
    rw [hsize1]; omega
  have htab1 : (GameManager.createRoom avail (GameManager.createRoom avail gm h id1 m1 e1).2.1
      (GameManager.createRoom avail gm h id1 m1 e1).2.2 id2 m2 e2).2.2.tab h.size =
      expansionTable avail (e1.getD []) := by
    rw [createRoom_heap_tab_ne avail _ _ id2 m2 e2 h.size hne]
    exact createRoom_heap_tab_self avail gm h id1 m1 e1
  have htab2 : (GameManager.createRoom avail (GameManager.createRoom avail gm h id1 m1 e1).2.1
      (GameManager.createRoom avail gm h id1 m1 e1).2.2 id2 m2 e2).2.2.tab
      (GameManager.createRoom avail gm h id1 m1 e1).2.2.size =
      expansionTable avail (e2.getD []) :=
    createRoom_heap_tab_self avail _ _ id2 m2 e2
  refine ⟨?_, ?_, ?_, ?_, ?_⟩
  · rw [href1, href2]
    exact hne
  · rw [href1]
    exact htab1
  · rw [href2]
    exact htab2
  · unfold roomCallbacks
    rw [href1, htab1]
  · unfold roomCallbacks
    rw [href2, htab2]

theorem resolveIds_withMax (r : Room) (m : Nat) (l : List String) :
    (r.withMax m).resolveIds l = r.resolveIds l := by
  induction l with
  | nil => rfl
  | cons a t ih =>
    simp only [Room.resolveIds, ih]
    rfl

/-- Claim C10: addPlayer never enforces the room capacity — for every room,
in particular one whose roster already has maxPlayers members, it appends the
new player to the roster and returns it; moreover no Room operation consults
the maxPlayers field: each operation commutes with replacing maxPlayers by an
arbitrary value, producing the same result and the same state except for the
untouched maxPlayers field itself. -/
theorem addPlayer_unbounded_and_maxPlayers_unused (r : Room) (m : Nat)
    (cid nick : String) (pid : Option String) (sid did nsid tgt : String) (b : Bool)
    (ids : List String) (hook : GamePhase → Option GamePhase) :
    (r.addPlayer cid nick pid).2.players = r.players ++ [(r.addPlayer cid nick pid).1] ∧
    (r.addPlayer cid nick pid).1.id = cid ∧
    (r.addPlayer cid nick pid).1.nickname = nick ∧
    ((r.withMax m).addPlayer cid nick pid =
      ((r.addPlayer cid nick pid).1, (r.addPlayer cid nick pid).2.withMax m)) ∧
    ((r.withMax m).removePlayer sid = (r.removePlayer sid).withMax m) ∧
    ((r.withMax m).reconnectPlayer did nsid =
      ((r.reconnectPlayer did nsid).1, (r.reconnectPlayer did nsid).2.withMax m)) ∧
    ((r.withMax m).getCurrentMissionSize = r.getCurrentMissionSize) ∧
    ((r.withMax m).selectTeam ids =
      ((r.selectTeam ids).1, (r.selectTeam ids).2.withMax m)) ∧
    ((r.withMax m).submitVote sid b = (r.submitVote sid b).withMax m) ∧
    ((r.withMax m).tallyVotes = ((r.tallyVotes).1, (r.tallyVotes).2.withMax m)) ∧
    ((r.withMax m).submitMissionAction sid b =
      ((r.submitMissionAction sid b).1, (r.submitMissionAction sid b).2.withMax m)) ∧
    ((r.withMax m).resolveMission hook =
      ((r.resolveMission hook).1, (r.resolveMission hook).2.withMax m)) ∧
    ((r.withMax m).handleAssassination tgt =
      ((r.handleAssassination tgt).1, (r.handleAssassination tgt).2.withMax m)) ∧
    ((r.withMax m).getWinner = r.getWinner) := by
  refine ⟨rfl, rfl, rfl, rfl, rfl, ?_, rfl, ?_, ?_, ?_, ?_, ?_, ?_, ?_⟩
  · unfold Room.reconnectPlayer
    have hany : (r.withMax m).players.any (fun p => p.playerId = did) =
        r.players.any (fun p => p.playerId = did) := rfl
    rw [hany]
    split_ifs <;> rfl
  · unfold Room.selectTeam
    rw [resolveIds_withMax]
    have hsz : (r.withMax m).getCurrentMissionSize = r.getCurrentMissionSize := rfl
    rw [hsz]
    split_ifs
    · rfl
    · cases r.resolveIds ids <;> rfl
  · unfold Room.submitVote
    have hg : (r.withMax m).getPlayer sid = r.getPlayer sid := rfl
    rw [hg]
    cases r.getPlayer sid with
    | none => rfl
    | some p =>
      dsimp only
      split_ifs <;> rfl
  · unfold Room.tallyVotes
    have ha : (r.withMax m).approveCount = r.approveCount := rfl
    have hrj : (r.withMax m).rejectCount = r.rejectCount := rfl
    rw [ha, hrj]
    have hvr : (r.withMax m).voteRejections = r.voteRejections := rfl
    rw [hvr]
    dsimp only
    split_ifs <;> rfl
  · unfold Room.submitMissionAction
    have hg : (r.withMax m).getPlayer sid = r.getPlayer sid := rfl
    rw [hg]
    cases r.getPlayer sid with
    | none => rfl
    | some p =>
      dsimp only
      have hsel : (r.withMax m).selectedTeam = r.selectedTeam := rfl
      rw [hsel]
      split_ifs <;> rfl
  · unfold Room.resolveMission Room.withMax
    dsimp only
    by_cases hz : (r.missionActions.filter (fun kv => kv.2 = false)).length = 0 <;>
      simp only [hz, decide_True, decide_False, Bool.false_eq_true, if_true, if_false] <;>
      split_ifs <;>
      first
        | rfl
        | simp_all
  · rfl
  · rfl
